import Mathlib

/-!
Verification of the clinical-trial matching pipeline in
`src/src/clinical_trial_matcher.py` (the remote-service variant of
`ClinicalTrialMatcher`).  The flat-file variant in
`src/clinical_trial_matcher.py` shares the evaluator
(`_evaluate_single_trial`), the sort/truncate step and `generate_report`
verbatim with the remote-service variant, so the development follows the
remote-service file and its line numbers.

Modelling conventions:
* JSON data is a `JsonValue`; `jsonParse` models `json.loads` (finite
  numbers only — the non-standard `NaN`/`Infinity` extension of the Python
  parser is not modelled, and `\uXXXX` surrogate pairs are combined
  per escape rather than per pair).
* Python floats are modelled as `Rat`; the only operations the pipeline
  performs on them are construction from JSON literals and order
  comparisons, which `Rat` models exactly for the decimal literals involved.
* The reasoning oracle and the HTTP transport are external collaborators:
  their outcomes are inputs of the model (`Except Unit String` for an
  oracle call that may raise, `HttpOutcome` for an HTTP exchange).
* A progress callback is modelled as `String → Bool`: the Python code
  ignores the callback's return value, so the only way a callback can
  influence the run is by raising; `false` models "this invocation raised".
* Paths on which the Python code raises an exception that is caught by the
  per-candidate handler in `match_patient_to_trials` (lines 517-521) are
  modelled by the corresponding per-candidate function returning `none`,
  which yields the same observable behaviour (the candidate is skipped and
  the accumulated matches are kept).
-/

set_option maxRecDepth 400000

namespace CTM

/-- JSON values as produced by `json.loads`.  Objects keep the textual
field order; lookup takes the last binding of a key, matching the
last-wins behaviour of Python's dict construction from JSON text. -/
inductive JsonValue where
  | null : JsonValue
  | bool : Bool → JsonValue
  | num : Rat → JsonValue
  | str : String → JsonValue
  | arr : List JsonValue → JsonValue
  | obj : List (String × JsonValue) → JsonValue

/-- Python truthiness of a decoded JSON value (`if not x` / `if x`). -/
def truthy : JsonValue → Bool
  | JsonValue.null => false
  | JsonValue.bool b => b
  | JsonValue.num q => q != 0
  | JsonValue.str s => s != ""
  | JsonValue.arr xs => !xs.isEmpty
  | JsonValue.obj fs => !fs.isEmpty

/-- Python `a or b` on decoded JSON values. -/
def pyOr (a b : JsonValue) : JsonValue := if truthy a then a else b

/-- Dictionary lookup `d[k]` / `k in d`: `none` when the value is not an
object or lacks the key; the last binding wins, as in Python dicts. -/
def jGet (v : JsonValue) (k : String) : Option JsonValue :=
  match v with
  | JsonValue.obj fields => (fields.reverse.find? (fun p => p.1 == k)).map (fun p => p.2)
  | _ => none

/-- Dictionary lookup with default, `d.get(k, default)`. -/
def jGetD (v : JsonValue) (k : String) (d : JsonValue) : JsonValue :=
  (jGet v k).getD d

/-- Dictionary lookup with `None` default, `d.get(k)`. -/
def jGetN (v : JsonValue) (k : String) : JsonValue :=
  jGetD v k JsonValue.null

mutual

/-- Structural equality of decoded JSON values, modelling Python `==` on
the decoded data (object fields are compared positionally here; the
pipeline only ever compares title strings, where this coincides). -/
def jsonEq : JsonValue → JsonValue → Bool
  | JsonValue.null, JsonValue.null => true
  | JsonValue.bool a, JsonValue.bool b => a == b
  | JsonValue.num a, JsonValue.num b => a == b
  | JsonValue.str a, JsonValue.str b => a == b
  | JsonValue.arr a, JsonValue.arr b => jsonEqList a b
  | JsonValue.obj a, JsonValue.obj b => jsonEqFields a b
  | _, _ => false

/-- Pointwise equality of JSON arrays. -/
def jsonEqList : List JsonValue → List JsonValue → Bool
  | [], [] => true
  | x :: xs, y :: ys => jsonEq x y && jsonEqList xs ys
  | _, _ => false

/-- Pointwise equality of JSON object field lists. -/
def jsonEqFields : List (String × JsonValue) → List (String × JsonValue) → Bool
  | [], [] => true
  | (ka, va) :: xs, (kb, vb) :: ys => ka == kb && jsonEq va vb && jsonEqFields xs ys
  | _, _ => false

end

/-- JSON whitespace characters accepted between tokens by `json.loads`. -/
def isJsonWs (c : Char) : Bool := c = ' ' || c = '\t' || c = '\n' || c = '\r'

/-- Drop leading JSON whitespace. -/
def skipJsonWs (cs : List Char) : List Char := cs.dropWhile isJsonWs

/-- Value of a hexadecimal digit. -/
def hexVal? (c : Char) : Option Nat :=
  if '0' ≤ c ∧ c ≤ '9' then some (c.toNat - '0'.toNat)
  else if 'a' ≤ c ∧ c ≤ 'f' then some (c.toNat - 'a'.toNat + 10)
  else if 'A' ≤ c ∧ c ≤ 'F' then some (c.toNat - 'A'.toNat + 10)
  else none

/-- Value of a decimal digit. -/
def digitVal? (c : Char) : Option Nat :=
  if '0' ≤ c ∧ c ≤ '9' then some (c.toNat - '0'.toNat) else none

/-- Split a leading run of decimal digits from the input. -/
def takeDigits : List Char → (List Nat × List Char)
  | [] => ([], [])
  | c :: rest =>
    match digitVal? c with
    | some d => let p := takeDigits rest; (d :: p.1, p.2)
    | none => ([], c :: rest)

/-- Decimal value of a digit list. -/
def digitsToNat (ds : List Nat) : Nat := ds.foldl (fun acc d => acc * 10 + d) 0

/-- Parse the body of a JSON string after the opening quote, handling the
escape sequences accepted by `json.loads` in strict mode (raw control
characters are rejected). -/
def parseJsonStringBody : List Char → List Char → Option (String × List Char)
  | _, [] => none
  | acc, c :: rest =>
    if c = '"' then some (String.mk acc.reverse, rest)
    else if c = '\\' then
      match rest with
      | [] => none
      | e :: rest2 =>
        if e = '"' then parseJsonStringBody ('"' :: acc) rest2
        else if e = '\\' then parseJsonStringBody ('\\' :: acc) rest2
        else if e = '/' then parseJsonStringBody ('/' :: acc) rest2
        else if e = 'b' then parseJsonStringBody ('\x08' :: acc) rest2
        else if e = 'f' then parseJsonStringBody ('\x0c' :: acc) rest2
        else if e = 'n' then parseJsonStringBody ('\n' :: acc) rest2
        else if e = 'r' then parseJsonStringBody ('\r' :: acc) rest2
        else if e = 't' then parseJsonStringBody ('\t' :: acc) rest2
        else if e = 'u' then
          match rest2 with
          | h1 :: h2 :: h3 :: h4 :: rest3 =>
            match hexVal? h1, hexVal? h2, hexVal? h3, hexVal? h4 with
            | some a, some b, some c2, some d =>
              parseJsonStringBody (Char.ofNat (((a * 16 + b) * 16 + c2) * 16 + d) :: acc) rest3
            | _, _, _, _ => none
          | _ => none
        else none
    else if c.toNat < 32 then none
    else parseJsonStringBody (c :: acc) rest

/-- Parse a JSON number (finite decimal literals, as in the JSON grammar). -/
def parseJsonNumber (cs : List Char) : Option (Rat × List Char) :=
  let signed : Bool × List Char := match cs with
    | '-' :: r => (true, r)
    | _ => (false, cs)
  let p1 := takeDigits signed.2
  let leadingZero : Bool := match p1.1 with
    | 0 :: _ :: _ => true
    | _ => false
  if p1.1 = [] then none
  else if leadingZero then none
  else
    let fracRes : Option (List Nat × List Char) :=
      match p1.2 with
      | '.' :: r => let p := takeDigits r; if p.1 = [] then none else some (p.1, p.2)
      | rest => some ([], rest)
    match fracRes with
    | none => none
    | some (fracDs, cs3) =>
      let expRes : Option (Int × List Char) :=
        match cs3 with
        | c :: r =>
          if c = 'e' || c = 'E' then
            let se : Bool × List Char := match r with
              | '+' :: r2 => (false, r2)
              | '-' :: r2 => (true, r2)
              | _ => (false, r)
            let pe := takeDigits se.2
            if pe.1 = [] then none
            else some ((if se.1 then -(digitsToNat pe.1 : Int) else (digitsToNat pe.1 : Int)), pe.2)
          else some (0, c :: r)
        | [] => some (0, [])
      match expRes with
      | none => none
      | some (e, cs4) =>
        let mant : Nat := digitsToNat (p1.1 ++ fracDs)
        let sm : Int := if signed.1 then -(mant : Int) else (mant : Int)
        let d : Int := e - (fracDs.length : Int)
        let v : Rat :=
          if 0 ≤ d then mkRat (sm * (((10 : Nat) ^ d.toNat : Nat) : Int)) 1
          else mkRat sm ((10 : Nat) ^ (-d).toNat)
        some (v, cs4)

mutual

/-- Fuel-bounded parser for one JSON value; the input must start at a
non-whitespace position. -/
def parseJsonValue : Nat → List Char → Option (JsonValue × List Char)
  | 0, _ => none
  | _ + 1, [] => none
  | fuel + 1, c :: rest =>
    if c = '"' then
      match parseJsonStringBody [] rest with
      | some (s, r) => some (JsonValue.str s, r)
      | none => none
    else if c = '[' then parseJsonElems fuel (skipJsonWs rest) []
    else if c = '\x7b' then parseJsonMembers fuel (skipJsonWs rest) []
    else if c = 't' then
      match rest with
      | 'r' :: 'u' :: 'e' :: r => some (JsonValue.bool true, r)
      | _ => none
    else if c = 'f' then
      match rest with
      | 'a' :: 'l' :: 's' :: 'e' :: r => some (JsonValue.bool false, r)
      | _ => none
    else if c = 'n' then
      match rest with
      | 'u' :: 'l' :: 'l' :: r => some (JsonValue.null, r)
      | _ => none
    else
      match parseJsonNumber (c :: rest) with
      | some (q, r) => some (JsonValue.num q, r)
      | none => none

/-- Fuel-bounded parser for the elements of a JSON array after `[`. -/
def parseJsonElems : Nat → List Char → List JsonValue → Option (JsonValue × List Char)
  | 0, _, _ => none
  | fuel + 1, cs, acc =>
    match cs with
    | ']' :: r => if acc.isEmpty then some (JsonValue.arr [], r) else none
    | _ =>
      match parseJsonValue fuel cs with
      | none => none
      | some (v, r) =>
        match skipJsonWs r with
        | ',' :: r2 => parseJsonElems fuel (skipJsonWs r2) (acc ++ [v])
        | ']' :: r2 => some (JsonValue.arr (acc ++ [v]), r2)
        | _ => none

/-- Fuel-bounded parser for the members of a JSON object after the opening
brace. -/
def parseJsonMembers : Nat → List Char → List (String × JsonValue) → Option (JsonValue × List Char)
  | 0, _, _ => none
  | fuel + 1, cs, acc =>
    match cs with
    | '\x7d' :: r => if acc.isEmpty then some (JsonValue.obj [], r) else none
    | '"' :: r =>
      match parseJsonStringBody [] r with
      | none => none
      | some (k, r1) =>
        match skipJsonWs r1 with
        | ':' :: r2 =>
          match parseJsonValue fuel (skipJsonWs r2) with
          | none => none
          | some (v, r3) =>
            match skipJsonWs r3 with
            | ',' :: r4 => parseJsonMembers fuel (skipJsonWs r4) (acc ++ [(k, v)])
            | '\x7d' :: r4 => some (JsonValue.obj (acc ++ [(k, v)]), r4)
            | _ => none
        | _ => none
    | _ => none

end

/-- Model of `json.loads` on a character list: parse a complete JSON
document, requiring full consumption of the input up to trailing
whitespace. -/
def jsonParseChars (cs : List Char) : Option JsonValue :=
  match parseJsonValue (cs.length + 1) (skipJsonWs cs) with
  | some (v, r) => if skipJsonWs r = [] then some v else none
  | none => none

/-- Model of `json.loads`. -/
def jsonParse (s : String) : Option JsonValue :=
  jsonParseChars s.toList

/-- Python `str.strip()` whitespace (the ASCII whitespace characters; the
pipeline never feeds other Unicode whitespace through `strip`). -/
def isPyWs (c : Char) : Bool :=
  c = ' ' || c = '\t' || c = '\n' || c = '\r' || c = '\x0b' || c = '\x0c'

/-- Python `s.strip()` over characters. -/
def pyStripChars (cs : List Char) : List Char :=
  ((cs.dropWhile isPyWs).reverse.dropWhile isPyWs).reverse

/-- Python `s.strip()`. -/
def pyStrip (s : String) : String :=
  String.mk (pyStripChars s.toList)

/-- Python slice `l[:n]` for an arbitrary (possibly negative) stop. -/
def pySliceTo {α : Type} (n : Int) (l : List α) : List α :=
  if 0 ≤ n then l.take n.toNat else l.take ((l.length : Int) + n).toNat

mutual

/-- Rendering of a decoded JSON value, modelling the `json.dumps(result,
indent=2)` fallback for `full_text` (layout and string escaping are
abbreviated; no property of the development inspects this text). -/
def jsonDumps : JsonValue → String
  | JsonValue.null => "null"
  | JsonValue.bool true => "true"
  | JsonValue.bool false => "false"
  | JsonValue.num q => toString q
  | JsonValue.str s => "\"" ++ s ++ "\""
  | JsonValue.arr xs => "[" ++ jsonDumpsList xs ++ "]"
  | JsonValue.obj fs => "\x7b" ++ jsonDumpsFields fs ++ "\x7d"

/-- Comma-separated rendering of JSON array elements. -/
def jsonDumpsList : List JsonValue → String
  | [] => ""
  | [x] => jsonDumps x
  | x :: xs => jsonDumps x ++ ", " ++ jsonDumpsList xs

/-- Comma-separated rendering of JSON object members. -/
def jsonDumpsFields : List (String × JsonValue) → String
  | [] => ""
  | [(k, v)] => "\"" ++ k ++ "\": " ++ jsonDumps v
  | (k, v) :: fs => "\"" ++ k ++ "\": " ++ jsonDumps v ++ ", " ++ jsonDumpsFields fs

end

/-- Python `str(x)` on a decoded JSON value, as used in f-string
interpolation of payload fields (the composite cases defer to the
abbreviated renderer; no property inspects them). -/
def pyStr : JsonValue → String
  | JsonValue.null => "None"
  | JsonValue.bool true => "True"
  | JsonValue.bool false => "False"
  | JsonValue.num q => toString q
  | JsonValue.str s => s
  | JsonValue.arr xs => jsonDumps (JsonValue.arr xs)
  | JsonValue.obj fs => jsonDumps (JsonValue.obj fs)

/-- Python `float(s)` on a decimal string: optional sign, digits with an
optional fraction and exponent, surrounded by optional whitespace
(`inf`/`nan` and underscore separators are not modelled — they cannot be
represented in `Rat` and no claim involves them). -/
def parsePyFloatChars (cs : List Char) : Option Rat :=
  let signed : Bool × List Char := match cs with
    | '+' :: r => (false, r)
    | '-' :: r => (true, r)
    | _ => (false, cs)
  let p1 := takeDigits signed.2
  let fracRes : Option (List Nat × List Char) :=
    match p1.2 with
    | '.' :: r => let p := takeDigits r; some (p.1, p.2)
    | rest => some ([], rest)
  match fracRes with
  | none => none
  | some (fracDs, cs3) =>
    if p1.1 = [] ∧ fracDs = [] then none
    else
      let expRes : Option (Int × List Char) :=
        match cs3 with
        | c :: r =>
          if c = 'e' || c = 'E' then
            let se : Bool × List Char := match r with
              | '+' :: r2 => (false, r2)
              | '-' :: r2 => (true, r2)
              | _ => (false, r)
            let pe := takeDigits se.2
            if pe.1 = [] then none
            else some ((if se.1 then -(digitsToNat pe.1 : Int) else (digitsToNat pe.1 : Int)), pe.2)
          else some (0, c :: r)
        | [] => some (0, [])
      match expRes with
      | none => none
      | some (e, cs4) =>
        if cs4 = [] then
          let mant : Nat := digitsToNat (p1.1 ++ fracDs)
          let sm : Int := if signed.1 then -(mant : Int) else (mant : Int)
          let d : Int := e - (fracDs.length : Int)
          some (if 0 ≤ d then mkRat (sm * (((10 : Nat) ^ d.toNat : Nat) : Int)) 1
                else mkRat sm ((10 : Nat) ^ (-d).toNat))
        else none

/-- Python `float(x)` on a decoded JSON value: numbers and booleans convert,
numeric strings are parsed, anything else raises (`none`). -/
def pyFloat? : JsonValue → Option Rat
  | JsonValue.num q => some q
  | JsonValue.bool b => some (if b then 1 else 0)
  | JsonValue.str s => parsePyFloatChars (pyStrip s).toList
  | _ => none

/-- Pydantic validation of a `str` field: accepts exactly JSON strings. -/
def asStr? : JsonValue → Option String
  | JsonValue.str s => some s
  | _ => none

/-- Pydantic validation of a `List[str]` field: a JSON array whose elements
are all strings. -/
def asStrList? : JsonValue → Option (List String)
  | JsonValue.arr xs => xs.mapM asStr?
  | _ => none

end CTM

namespace CTM

/-- The three-backtick fence delimiter of a markdown code block. -/
def fenceChars : List Char := "```".toList

/-- Whether a code fence follows after optional whitespace, i.e. whether the
remainder of the response matches the trailing part of the fenced-block
pattern used by the evaluator. -/
def fenceFollows (cs : List Char) : Bool :=
  List.isPrefixOf fenceChars (cs.dropWhile isPyWs)

/-- Scan for the lazily-minimal closing brace of the fenced-block pattern:
the first closing brace that is followed (after optional whitespace) by a
closing fence.  Returns the brace-delimited group. -/
def lazyBraceClose (acc : List Char) : List Char → Option (List Char)
  | [] => none
  | c :: rest =>
    if c = '\x7d' && fenceFollows rest then some ('\x7b' :: (acc.reverse ++ ['\x7d']))
    else lazyBraceClose (c :: acc) rest

/-- Attempt the body of the fenced-block pattern right after an opening
fence: an optional `json` tag, optional whitespace, then a lazily-matched
brace group followed by whitespace and a closing fence. -/
def tryFenceBody (cs : List Char) : Option (List Char) :=
  let tryFrom : List Char → Option (List Char) := fun ds =>
    match ds.dropWhile isPyWs with
    | '\x7b' :: rest => lazyBraceClose [] rest
    | _ => none
  match cs with
  | 'j' :: 's' :: 'o' :: 'n' :: rest =>
    match tryFrom rest with
    | some g => some g
    | none => tryFrom cs
  | _ => tryFrom cs

/-- Leftmost match of the fenced-JSON search the evaluator performs first
on the oracle response (a brace group inside a markdown code fence). -/
def searchFenced : List Char → Option (List Char)
  | [] => none
  | c :: rest =>
    if c = '\x60' && List.isPrefixOf ['\x60', '\x60'] rest then
      match tryFenceBody (rest.drop 2) with
      | some g => some g
      | none => searchFenced rest
    else searchFenced rest

/-- Input up to and including its last closing brace. -/
def takeThroughLastBrace (cs : List Char) : List Char :=
  (cs.reverse.dropWhile (fun c => !(c = '\x7d'))).reverse

/-- Leftmost-greedy match of the bare brace-group search the evaluator
falls back to: from the first opening brace that has a later closing
brace, through the last closing brace of the whole text. -/
def searchBrace : List Char → Option (List Char)
  | [] => none
  | c :: rest =>
    if c = '\x7b' && rest.contains '\x7d' then some ('\x7b' :: takeThroughLastBrace rest)
    else searchBrace rest

/-- Locate the JSON verdict text inside an oracle response, as
`_evaluate_single_trial` does (lines 584-593): first a fenced code block,
then a bare brace group; `none` models the raised `ValueError`. -/
def extractJsonStr (responseText : String) : Option String :=
  match searchFenced responseText.toList with
  | some g => some (String.mk g)
  | none =>
    match searchBrace responseText.toList with
    | some g => some (String.mk g)
    | none => none

/-- Python `s.split(c)` for a single-character separator. -/
def splitOnChar (sep : Char) : List Char → List (List Char)
  | [] => [[]]
  | c :: rest =>
    let r := splitOnChar sep rest
    if c = sep then [] :: r
    else
      match r with
      | h :: t => (c :: h) :: t
      | [] => [[c]]

/-- The `data: ` prefix of a server-sent-events payload line. -/
def dataPrefixChars : List Char := "data: ".toList

/-- The result record of one trial evaluation (`TrialMatch`, lines 17-27).
The pydantic model stores exactly these fields; `match_status` and
`confidence_score` are plain `str`/`float` fields — the enumeration and
range given in the source comments are not enforced by the model class. -/
structure TrialMatch where
  trial_id : String
  trial_name : String
  match_status : String
  confidence_score : Rat
  inclusion_criteria_met : List String
  inclusion_criteria_not_met : List String
  exclusion_criteria_violated : List String
  reasoning : String
  contact_info : String
  deriving DecidableEq, Repr

/-- The trial-detail dictionary built by `_get_trial_details_via_mcp`
(lines 326-331): the four keys are created up front and never removed. -/
structure TrialDetail where
  trial_id : String
  trial_name : String
  contact_info : String
  full_text : String
  deriving DecidableEq, Repr

/-- Outcome of one HTTP exchange with the remote trial-search service, as
observed by `_call_mcp_tool`: a timeout, a connection error, some other
raised exception, or a response with a status code and a body text. -/
inductive HttpOutcome where
  | timeout : HttpOutcome
  | connError : HttpOutcome
  | exn : HttpOutcome
  | ok : Nat → String → HttpOutcome

/-- Model of `_call_mcp_tool` (lines 56-175): on a 200 response, locate
the first `data: ` line of the event-stream body, decode it as a JSON-RPC
envelope, extract `result.content[0].text` and decode that string again;
every failure — non-200 status, missing or empty data line, either decode
failing, or a malformed envelope shape (whose dictionary operations would
raise and be caught by the handler of line 171) — yields `none`. -/
def callMcpTool (outcome : HttpOutcome) : Option JsonValue :=
  match outcome with
  | HttpOutcome.timeout => none
  | HttpOutcome.connError => none
  | HttpOutcome.exn => none
  | HttpOutcome.ok status body =>
    if status = 200 then
      let lines := splitOnChar '\n' (pyStripChars body.toList)
      match lines.find? (fun l => List.isPrefixOf dataPrefixChars l) with
      | none => none
      | some line =>
        let dataJson := line.drop 6
        if dataJson.isEmpty then none
        else
          match jsonParseChars dataJson with
          | none => none
          | some mcpResponse =>
            match jGet mcpResponse "result" with
            | none => none
            | some result =>
              match jGet result "content" with
              | some (JsonValue.arr (contentHead :: _)) =>
                match jGet contentHead "text" with
                | some (JsonValue.str textData) => jsonParse textData
                | some _ => none
                | none => none
              | _ => none
    else none

/-- NCT identifier of one study record, per the extraction loop of
`_search_trials_via_mcp` (lines 282-288): non-dictionary studies are
skipped by the `isinstance` guard; the identifier is kept when truthy.
(A truthy non-dictionary `protocolSection`/`identificationModule` value or
a truthy non-string identifier is not modelled: on such data the unguarded
Python attribute access would raise out of the whole call; no claim
involves such payloads.) -/
def studyNctId (study : JsonValue) : Option String :=
  match study with
  | JsonValue.obj _ =>
    let protocol := jGetD study "protocolSection" (JsonValue.obj [])
    let ident := jGetD protocol "identificationModule" (JsonValue.obj [])
    match jGet ident "nctId" with
    | some (JsonValue.str s) => if s = "" then none else some s
    | _ => none
  | _ => none

/-- Model of `_search_trials_via_mcp` (lines 233-303): call the tool, and
on any falsy result, non-dictionary result, missing/empty `studies` list
or empty extracted identifier list return `[]`; otherwise return the
identifiers truncated to `max_studies` by a Python slice. -/
def searchTrialsViaMcp (outcome : HttpOutcome) (maxStudies : Int) : List String :=
  match callMcpTool outcome with
  | none => []
  | some result =>
    if !truthy result then []
    else
      match result with
      | JsonValue.obj _ =>
        let studies := jGetD result "studies" (JsonValue.arr [])
        match studies with
        | JsonValue.arr ss =>
          if ss.isEmpty then []
          else
            let nctIds := ss.filterMap studyNctId
            if nctIds.isEmpty then [] else pySliceTo maxStudies nctIds
        | _ => []
      | _ => []

/-- The protocol section of a tool result, `result.get("protocolSection", {})`
(line 335). -/
def protocolOf (result : JsonValue) : JsonValue :=
  jGetD result "protocolSection" (JsonValue.obj [])

/-- `protocol.get("identificationModule", {})` (line 339). -/
def identModuleOf (protocol : JsonValue) : JsonValue :=
  jGetD protocol "identificationModule" (JsonValue.obj [])

/-- `protocol.get("eligibilityModule", {})` (line 343). -/
def eligModuleOf (protocol : JsonValue) : JsonValue :=
  jGetD protocol "eligibilityModule" (JsonValue.obj [])

/-- `protocol.get("descriptionModule", {})` (line 344). -/
def descriptionModuleOf (protocol : JsonValue) : JsonValue :=
  jGetD protocol "descriptionModule" (JsonValue.obj [])

/-- `protocol.get("statusModule", {})` (line 345). -/
def statusModuleOf (protocol : JsonValue) : JsonValue :=
  jGetD protocol "statusModule" (JsonValue.obj [])

/-- Whether a decoded JSON value is a dictionary. -/
def isObjB : JsonValue → Bool
  | JsonValue.obj _ => true
  | _ => false

/-- Trial name per line 340: `briefTitle or officialTitle or "Unknown"`.
A truthy non-string title is an error outcome: the retrieval print of
line 402 would slice it and raise, which the per-candidate handler of the
orchestrator turns into a skip. -/
def extractTrialName (ident : JsonValue) : Except Unit String :=
  let nameVal := pyOr (jGetN ident "briefTitle")
    (pyOr (jGetN ident "officialTitle") (JsonValue.str "Unknown"))
  match nameVal with
  | JsonValue.str s => Except.ok s
  | _ => Except.error ()

/-- Contact extraction of lines 380-393: take the first central contact
and join its truthy name, phone and email.  `Except.ok none` means the
default sentinel is kept; `Except.error` models the paths on which the
Python code would raise (attribute/index access on a malformed shape, or
joining a non-string name/email). -/
def extractContactInfo (protocol : JsonValue) : Except Unit (Option String) :=
  let contacts := jGetD protocol "contactsLocationsModule" (JsonValue.obj [])
  if truthy contacts then
    match contacts with
    | JsonValue.obj _ =>
      let central := jGetD contacts "centralContact" (JsonValue.arr [])
      if truthy central then
        match central with
        | JsonValue.arr (contact :: _) =>
          match contact with
          | JsonValue.obj _ =>
            let nameV := jGetN contact "name"
            let phoneV := jGetN contact "phone"
            let emailV := jGetN contact "email"
            let nameRes : Except Unit (List String) :=
              if truthy nameV then
                match nameV with
                | JsonValue.str s => Except.ok [s]
                | _ => Except.error ()
              else Except.ok []
            let phoneParts : List String :=
              if truthy phoneV then ["Phone: " ++ pyStr phoneV] else []
            let emailRes : Except Unit (List String) :=
              if truthy emailV then
                match emailV with
                | JsonValue.str s => Except.ok [s]
                | _ => Except.error ()
              else Except.ok []
            match nameRes, emailRes with
            | Except.ok nameParts, Except.ok emailParts =>
              let parts := nameParts ++ phoneParts ++ emailParts
              if parts.isEmpty then Except.ok none
              else Except.ok (some (String.intercalate " | " parts))
            | _, _ => Except.error ()
          | _ => Except.error ()
        | _ => Except.error ()
      else Except.ok none
    | _ => Except.error ()
  else Except.ok none

/-- The labelled `full_text` sections built in lines 347-395. -/
def buildFullTextParts (nctId : String) (protocol : JsonValue) : List String :=
  let ident := identModuleOf protocol
  let elig := eligModuleOf protocol
  let description := descriptionModuleOf protocol
  let status := statusModuleOf protocol
  (if truthy (jGetN ident "briefTitle") then
     ["TRIAL ID: " ++ nctId, "NAME: " ++ pyStr (jGetN ident "briefTitle")] ++
     (if truthy (jGetN ident "officialTitle")
         && !jsonEq (jGetN ident "officialTitle") (jGetN ident "briefTitle") then
        ["OFFICIAL TITLE: " ++ pyStr (jGetN ident "officialTitle")]
      else [])
   else []) ++
  (if truthy (jGetN status "overallStatus") then
     ["STATUS: " ++ pyStr (jGetN status "overallStatus")] else []) ++
  (if truthy (jGetN description "briefSummary") then
     ["\nBRIEF SUMMARY:\n" ++ pyStr (jGetN description "briefSummary")] else []) ++
  (if truthy (jGetN description "detailedDescription") then
     ["\nDETAILED DESCRIPTION:\n" ++ pyStr (jGetN description "detailedDescription")] else []) ++
  (if truthy (jGetN elig "eligibilityCriteria") then
     ["\nELIGIBILITY CRITERIA:\n" ++ pyStr (jGetN elig "eligibilityCriteria")] else []) ++
  (if truthy (jGetN elig "minimumAge") then
     ["MINIMUM AGE: " ++ pyStr (jGetN elig "minimumAge")] else []) ++
  (if truthy (jGetN elig "sex") then
     ["SEX: " ++ pyStr (jGetN elig "sex")] else []) ++
  (if truthy (jGetN elig "healthyVolunteers") then
     ["HEALTHY VOLUNTEERS: " ++ pyStr (jGetN elig "healthyVolunteers")] else [])

/-- The record built from a truthy protocol section (lines 337-395):
checks that the four module values the code calls `.get` on are
dictionaries (any other truthy value makes the Python attribute access
raise, turning the fetch into a skip), extracts the title and the central
contact, and assembles the labelled `full_text`. -/
def trialFromProtocol (nctId : String) (protocol : JsonValue) : Option TrialDetail :=
  if isObjB (identModuleOf protocol) && isObjB (eligModuleOf protocol)
      && isObjB (descriptionModuleOf protocol) && isObjB (statusModuleOf protocol) then
    match extractTrialName (identModuleOf protocol), extractContactInfo protocol with
    | Except.ok name, Except.ok contactOpt =>
      some { trial_id := nctId, trial_name := name,
             contact_info := contactOpt.getD "Not available",
             full_text := String.intercalate "\n" (buildFullTextParts nctId protocol) }
    | _, _ => none
  else none

/-- Model of `_get_trial_details_via_mcp` (lines 305-403).  The record is
created with `trial_id` set to the requested identifier and the sentinels
`"Unknown"` / `"Not available"`, which are overwritten only when the
payload carries the corresponding truthy data.  A falsy tool result
returns absent; a malformed module shape (non-dictionary where the code
calls `.get`, or a non-string title) would raise in Python and be turned
into a skip by the orchestrator, modelled as absent here. -/
def getTrialDetailsViaMcp (nctId : String) (outcome : HttpOutcome) : Option TrialDetail :=
  Option.bind (callMcpTool outcome) fun result =>
    if !truthy result then none
    else
      match result with
      | JsonValue.obj _ =>
        if truthy (protocolOf result) then trialFromProtocol nctId (protocolOf result)
        else
          some { trial_id := nctId, trial_name := "Unknown",
                 contact_info := "Not available", full_text := jsonDumps result }
      | _ =>
        some { trial_id := nctId, trial_name := "Unknown",
               contact_info := "Not available", full_text := pyStr result }

/-- The required keys of an evaluation verdict, in the order
`_evaluate_single_trial` reads them (lines 598-608). -/
def requiredVerdictKeys : List String :=
  ["match_status", "confidence_score", "inclusion_criteria_met",
   "inclusion_criteria_not_met", "exclusion_criteria_violated", "reasoning"]

/-- The decoded verdict of an oracle response: locate the JSON text, then
decode it (lines 584-595). -/
def verdictOf (responseText : String) : Option JsonValue :=
  match extractJsonStr responseText with
  | none => none
  | some js => jsonParse js

/-- Construction of the `TrialMatch` from a decoded verdict (lines
598-608): each required key is read (a missing key raises `KeyError`,
caught by the handler of line 610), the score passes through `float(...)`,
and the pydantic field types are validated.  Any failure yields `none`. -/
def buildTrialMatch (trial : TrialDetail) (ev : JsonValue) : Option TrialMatch :=
  Option.bind (jGet ev "match_status") fun stV =>
  Option.bind (jGet ev "confidence_score") fun scV =>
  Option.bind (pyFloat? scV) fun sc =>
  Option.bind (jGet ev "inclusion_criteria_met") fun imV =>
  Option.bind (jGet ev "inclusion_criteria_not_met") fun inV =>
  Option.bind (jGet ev "exclusion_criteria_violated") fun exV =>
  Option.bind (jGet ev "reasoning") fun reV =>
  Option.bind (asStr? stV) fun st =>
  Option.bind (asStrList? imV) fun im =>
  Option.bind (asStrList? inV) fun ninc =>
  Option.bind (asStrList? exV) fun exc =>
  Option.bind (asStr? reV) fun reas =>
  some { trial_id := trial.trial_id, trial_name := trial.trial_name,
         match_status := st, confidence_score := sc,
         inclusion_criteria_met := im, inclusion_criteria_not_met := ninc,
         exclusion_criteria_violated := exc, reasoning := reas,
         contact_info := trial.contact_info }

/-- Model of `_evaluate_single_trial` (lines 531-612): an oracle-call
error, a response without a locatable JSON object, a JSON decode error, a
missing required key or a field of the wrong shape all yield absent. -/
def evaluateSingleTrial (oracleResult : Except Unit String) (trial : TrialDetail) :
    Option TrialMatch :=
  match oracleResult with
  | Except.error _ => none
  | Except.ok responseText =>
    match verdictOf responseText with
    | none => none
    | some ev => buildTrialMatch trial ev

/-- The sort order of line 526: descending confidence score. -/
def confDescOrder (a b : TrialMatch) : Prop :=
  b.confidence_score ≤ a.confidence_score

instance : DecidableRel confDescOrder :=
  fun a b => inferInstanceAs (Decidable (b.confidence_score ≤ a.confidence_score))

instance : IsTotal TrialMatch confDescOrder :=
  ⟨fun a b => le_total b.confidence_score a.confidence_score⟩

instance : IsTrans TrialMatch confDescOrder :=
  ⟨fun _ _ _ h1 h2 => le_trans h2 h1⟩

/-- Model of `matches.sort(key=lambda x: x.confidence_score, reverse=True)`
(line 526).  Python's sort is stable; a stable insertion sort by the same
descending key is extensionally the same function of the input list. -/
def sortMatches (ms : List TrialMatch) : List TrialMatch :=
  List.insertionSort confDescOrder ms

/-- Environment of one matching run: the outcomes of the external
collaborators consumed by `match_patient_to_trials` for a fixed patient
text.  `extractResult` is the condition list produced by
`_extract_conditions_from_patient_data` (which catches all of its own
errors and returns a list, line 231); `evalOracle` gives the evaluation
oracle outcome for each trial identifier; `progressCallback` returns
whether the invocation returned normally. -/
structure McpEnv where
  extractResult : List String
  searchOutcome : HttpOutcome
  fetchOutcome : String → HttpOutcome
  evalOracle : String → Except Unit String
  progressCallback : Option (String → Bool)

/-- Invoke the optional progress callback; `true` when no callback was
supplied or the invocation returned normally. -/
def invokeCb (cb : Option (String → Bool)) (msg : String) : Bool :=
  match cb with
  | none => true
  | some f => f msg

/-- Every progress-callback invocation returns normally (vacuously true
when no callback is supplied). -/
def cbOk (env : McpEnv) : Prop := ∀ s, invokeCb env.progressCallback s = true

/-- The condition list after the fallback of lines 433-436: an empty
extraction result is replaced by the single generic search term. -/
def conditionsUsed (env : McpEnv) : List String :=
  if env.extractResult.isEmpty then ["clinical trial"] else env.extractResult

/-- The search query `_search_trials_via_mcp` builds (line 245): the
conditions joined by single spaces. -/
def searchQueryUsed (env : McpEnv) : String :=
  String.intercalate " " (conditionsUsed env)

/-- The progress message of line 429. -/
def step1Msg : String := "[Step 1/4] Analyzing patient data to identify conditions..."

/-- The progress message of line 442. -/
def step2Msg (conditions : List String) : String :=
  "[Step 2/4] Searching ClinicalTrials.gov for: " ++ String.intercalate ", " conditions ++ "..."

/-- The per-candidate progress message of line 493. -/
def trialStatusMsg (i total : Nat) (tid : String) : String :=
  "[Step 4/4] Evaluating trial " ++ toString i ++ "/" ++ toString total ++ ": " ++ tid ++ "..."

/-- The per-candidate loop of lines 488-521.  Returns the accumulated
match list and, as instrumentation for the no-retry property, the ordered
list of candidate identifiers on which the evaluator was invoked.  A
raising progress callback, an absent fetch or an absent evaluation all
skip the candidate and continue with the rest; accumulated matches are
never discarded. -/
def matchLoop (env : McpEnv) (total : Nat) :
    List String → Nat → List TrialMatch → List TrialMatch × List String
  | [], _, acc => (acc, [])
  | tid :: rest, i, acc =>
    if invokeCb env.progressCallback (trialStatusMsg i total tid) then
      match getTrialDetailsViaMcp tid (env.fetchOutcome tid) with
      | none => matchLoop env total rest (i + 1) acc
      | some trial =>
        match evaluateSingleTrial (env.evalOracle tid) trial with
        | some m =>
          let p := matchLoop env total rest (i + 1) (acc ++ [m])
          (p.1, tid :: p.2)
        | none =>
          let p := matchLoop env total rest (i + 1) acc
          (p.1, tid :: p.2)
    else matchLoop env total rest (i + 1) acc

/-- Model of `match_patient_to_trials` (lines 405-529), with the evaluator
invocation trace.  The two leading progress invocations (lines 428-429 and
441-442) are outside any handler, so a raising callback there propagates
(`Except.error`).  Search failure or an empty candidate list returns the
empty list immediately; otherwise each candidate is fetched and evaluated,
the accumulator is sorted by descending confidence and truncated by the
Python slice `[:max_trials_to_return]`. -/
def matchPipeline (env : McpEnv) (maxTrials : Int) :
    Except Unit (List TrialMatch × List String) :=
  if invokeCb env.progressCallback step1Msg then
    let conditions := conditionsUsed env
    if invokeCb env.progressCallback (step2Msg conditions) then
      let trialIds := searchTrialsViaMcp env.searchOutcome (2 * maxTrials)
      if trialIds.isEmpty then Except.ok ([], [])
      else
        let p := matchLoop env trialIds.length trialIds 1 []
        Except.ok (pySliceTo maxTrials (sortMatches p.1), p.2)
    else Except.error ()
  else Except.error ()

/-- The returned match list of `match_patient_to_trials`. -/
def matchPatientToTrials (env : McpEnv) (maxTrials : Int) :
    Except Unit (List TrialMatch) :=
  (matchPipeline env maxTrials).map (fun p => p.1)

/-- Count of matches with a given status (lines 633-635). -/
def statusCount (ms : List TrialMatch) (st : String) : Nat :=
  (ms.filter (fun m => m.match_status == st)).length

/-- Percentage rendering of a confidence score, modelling the `:.2%`
format of line 648 (display only; rounding of ties approximates the
binary-float formatting). -/
def formatPct2 (q : Rat) : String :=
  let n : Int := ⌊q * 10000 + 1 / 2⌋
  let ip := n / 100
  let fp := (n % 100).natAbs
  toString ip ++ "." ++ (if fp < 10 then "0" else "") ++ toString fp ++ "%"

/-- One criteria section of the report (lines 651-664): emitted only when
the list is non-empty. -/
def criteriaSection (header : String) (items : List String) : List String :=
  if items.isEmpty then []
  else ("\n   " ++ header ++ " (" ++ toString items.length ++ "):")
    :: items.map (fun c => "     • " ++ c)

/-- The reasoning lines of the report (lines 667-671): split on
period-space, keep non-empty pieces, strip and re-terminate. -/
def reasoningLines (reasoning : String) : List String :=
  (reasoning.splitOn ". ").filterMap
    (fun line => if line = "" then none else some ("     " ++ pyStrip line ++ "."))

/-- One per-match block of the report (lines 643-673). -/
def matchBlock (i : Nat) (m : TrialMatch) : List String :=
  [String.mk (List.replicate 80 '-'),
   "\n" ++ toString i ++ ". " ++ m.trial_name,
   "   Trial ID: " ++ m.trial_id,
   "   Status: " ++ m.match_status,
   "   Confidence: " ++ formatPct2 m.confidence_score,
   "   Contact: " ++ m.contact_info] ++
  criteriaSection "✓ Inclusion Criteria Met" m.inclusion_criteria_met ++
  criteriaSection "✗ Inclusion Criteria Not Met" m.inclusion_criteria_not_met ++
  criteriaSection "⚠ Exclusion Criteria Violated" m.exclusion_criteria_violated ++
  ["\n   Reasoning:"] ++ reasoningLines m.reasoning ++ [""]

/-- The enumerated per-match blocks, numbering from 1 (line 643). -/
def matchBlocks : Nat → List TrialMatch → List String
  | _, [] => []
  | i, m :: rest => matchBlock i m ++ matchBlocks (i + 1) rest

/-- Model of `generate_report` (lines 614-679): a pure function of the
match list; the empty list yields the fixed sentence of line 625. -/
def generateReport (ms : List TrialMatch) : String :=
  if ms.isEmpty then "No clinical trials found matching the patient's profile."
  else
    let banner := String.mk (List.replicate 80 '=')
    String.intercalate "\n"
      ([banner, "CLINICAL TRIAL MATCHING REPORT", banner,
        "\nTotal Trials Evaluated: " ++ toString ms.length,
        "Qualified: " ++ toString (statusCount ms "QUALIFIED"),
        "Not Qualified: " ++ toString (statusCount ms "NOT_QUALIFIED"),
        "Needs More Information: " ++ toString (statusCount ms "NEEDS_MORE_INFO"),
        ""] ++
       matchBlocks 1 ms ++
       [banner, "END OF REPORT", banner])

end CTM

namespace CTM

/-! Concrete fixtures: event-stream bodies and oracle responses used to
exercise the pipeline on closed inputs. -/

/-- An event-stream search body whose doubly-encoded payload lists one
study with identifier `NCT001`. -/
def sseSearchBody1 : String :=
  "data: \x7b\"result\": \x7b\"content\": [\x7b\"text\": \"\x7b\\\"totalCount\\\": 1, \\\"studies\\\": [\x7b\\\"protocolSection\\\": \x7b\\\"identificationModule\\\": \x7b\\\"nctId\\\": \\\"NCT001\\\"\x7d\x7d\x7d]\x7d\"\x7d]\x7d\x7d"

/-- An event-stream search body whose doubly-encoded payload lists four
studies `NCT001` … `NCT004`. -/
def sseSearchBody4 : String :=
  "data: \x7b\"result\": \x7b\"content\": [\x7b\"text\": \"\x7b\\\"totalCount\\\": 4, \\\"studies\\\": [\x7b\\\"protocolSection\\\": \x7b\\\"identificationModule\\\": \x7b\\\"nctId\\\": \\\"NCT001\\\"\x7d\x7d\x7d, \x7b\\\"protocolSection\\\": \x7b\\\"identificationModule\\\": \x7b\\\"nctId\\\": \\\"NCT002\\\"\x7d\x7d\x7d, \x7b\\\"protocolSection\\\": \x7b\\\"identificationModule\\\": \x7b\\\"nctId\\\": \\\"NCT003\\\"\x7d\x7d\x7d, \x7b\\\"protocolSection\\\": \x7b\\\"identificationModule\\\": \x7b\\\"nctId\\\": \\\"NCT004\\\"\x7d\x7d\x7d]\x7d\"\x7d]\x7d\x7d"

/-- An event-stream detail body whose doubly-encoded payload is the bare
JSON string `"hello"`: a truthy non-dictionary result, so the adapter
falls back to the raw serialisation and the default sentinels. -/
def sseFetchBodyHello : String :=
  "data: \x7b\"result\": \x7b\"content\": [\x7b\"text\": \"\\\"hello\\\"\"\x7d]\x7d\x7d"

/-- A well-formed oracle verdict with status `QUALIFIED` and score `0.9`. -/
def verdict09 : String :=
  "\x7b\"match_status\": \"QUALIFIED\", \"confidence_score\": 0.9, \"inclusion_criteria_met\": [], \"inclusion_criteria_not_met\": [], \"exclusion_criteria_violated\": [], \"reasoning\": \"ok\"\x7d"

/-- A well-formed oracle verdict with status `QUALIFIED` and score `0.4`. -/
def verdict04 : String :=
  "\x7b\"match_status\": \"QUALIFIED\", \"confidence_score\": 0.4, \"inclusion_criteria_met\": [], \"inclusion_criteria_not_met\": [], \"exclusion_criteria_violated\": [], \"reasoning\": \"ok\"\x7d"

/-- A well-formed oracle verdict with status `NEEDS_MORE_INFO` and score
`0.8`. -/
def verdict08 : String :=
  "\x7b\"match_status\": \"NEEDS_MORE_INFO\", \"confidence_score\": 0.8, \"inclusion_criteria_met\": [], \"inclusion_criteria_not_met\": [], \"exclusion_criteria_violated\": [], \"reasoning\": \"ok\"\x7d"

/-- A syntactically valid oracle verdict whose `match_status` is not one
of the three documented enumerators and whose `confidence_score` is
outside `[0, 1]`. -/
def verdictBad : String :=
  "\x7b\"match_status\": \"MAYBE\", \"confidence_score\": 2.0, \"inclusion_criteria_met\": [], \"inclusion_criteria_not_met\": [], \"exclusion_criteria_violated\": [], \"reasoning\": \"r\"\x7d"

/-- A plain trial-detail record for evaluator-level statements. -/
def trialPlain : TrialDetail :=
  { trial_id := "T1", trial_name := "N", contact_info := "C", full_text := "F" }

/-- The trial-detail record the adapter builds from `sseFetchBodyHello`. -/
def trialHello : TrialDetail :=
  { trial_id := "NCT001", trial_name := "Unknown", contact_info := "Not available",
    full_text := "hello" }

/-- A run whose search returns `NCT001`, whose fetch yields the `"hello"`
fallback record and whose evaluation verdict is `verdict09`; no callback. -/
def envBase : McpEnv :=
  { extractResult := ["lung cancer"],
    searchOutcome := HttpOutcome.ok 200 sseSearchBody1,
    fetchOutcome := fun _ => HttpOutcome.ok 200 sseFetchBodyHello,
    evalOracle := fun _ => Except.ok verdict09,
    progressCallback := none }

/-- A progress callback that returns normally except on the per-candidate
status messages, where it raises. -/
def cbRaiseOnStep4 : String → Bool :=
  fun s => !(decide (s.toList.take 10 = "[Step 4/4]".toList))

/-- `envBase` with the callback that raises on per-candidate messages. -/
def envCb : McpEnv :=
  { envBase with progressCallback := some cbRaiseOnStep4 }

/-- A run with four candidate studies whose first two survive the search
truncation and evaluate to scores `0.4` and `0.8` respectively. -/
def env4 : McpEnv :=
  { extractResult := ["x"],
    searchOutcome := HttpOutcome.ok 200 sseSearchBody4,
    fetchOutcome := fun _ => HttpOutcome.ok 200 sseFetchBodyHello,
    evalOracle := fun tid => Except.ok (if tid = "NCT001" then verdict04 else verdict08),
    progressCallback := none }

/-- A run whose whole search times out; no callback. -/
def envTimeout : McpEnv :=
  { extractResult := ["lung cancer"],
    searchOutcome := HttpOutcome.timeout,
    fetchOutcome := fun _ => HttpOutcome.timeout,
    evalOracle := fun _ => Except.error (),
    progressCallback := none }

/-- A run with an empty extraction result and a timed-out search. -/
def envNoCond : McpEnv :=
  { envTimeout with extractResult := [] }

/-- A run whose fetch succeeds with the `"hello"` record but whose
evaluation oracle call raises. -/
def envEvalFail : McpEnv :=
  { extractResult := ["x"],
    searchOutcome := HttpOutcome.ok 200 sseSearchBody1,
    fetchOutcome := fun _ => HttpOutcome.ok 200 sseFetchBodyHello,
    evalOracle := fun _ => Except.error (),
    progressCallback := none }

/-- A run whose fetch times out for every candidate. -/
def envFetchFail : McpEnv :=
  { extractResult := ["x"],
    searchOutcome := HttpOutcome.ok 200 sseSearchBody1,
    fetchOutcome := fun _ => HttpOutcome.timeout,
    evalOracle := fun _ => Except.ok verdict09,
    progressCallback := none }

/-- The match produced from `verdict09` on the `"hello"` record. -/
def m09 : TrialMatch :=
  { trial_id := "NCT001", trial_name := "Unknown", match_status := "QUALIFIED",
    confidence_score := mkRat 9 10, inclusion_criteria_met := [],
    inclusion_criteria_not_met := [], exclusion_criteria_violated := [],
    reasoning := "ok", contact_info := "Not available" }

/-- The match produced from `verdict04` on the `"hello"` record. -/
def m04 : TrialMatch :=
  { trial_id := "NCT001", trial_name := "Unknown", match_status := "QUALIFIED",
    confidence_score := mkRat 4 10, inclusion_criteria_met := [],
    inclusion_criteria_not_met := [], exclusion_criteria_violated := [],
    reasoning := "ok", contact_info := "Not available" }

/-- The match produced from `verdict08` on the `"hello"` record for
candidate `NCT002`. -/
def m08 : TrialMatch :=
  { trial_id := "NCT002", trial_name := "Unknown", match_status := "NEEDS_MORE_INFO",
    confidence_score := mkRat 8 10, inclusion_criteria_met := [],
    inclusion_criteria_not_met := [], exclusion_criteria_violated := [],
    reasoning := "ok", contact_info := "Not available" }

/-- The match produced from `verdictBad` on `trialPlain`: its status and
score are copied from the verdict unvalidated. -/
def mBad : TrialMatch :=
  { trial_id := "T1", trial_name := "N", match_status := "MAYBE",
    confidence_score := mkRat 2 1, inclusion_criteria_met := [],
    inclusion_criteria_not_met := [], exclusion_criteria_violated := [],
    reasoning := "r", contact_info := "C" }

/-- The decoded JSON verdict of `verdict09`. -/
def evC09 : JsonValue :=
  JsonValue.obj
    [("match_status", JsonValue.str "QUALIFIED"),
     ("confidence_score", JsonValue.num (mkRat 9 10)),
     ("inclusion_criteria_met", JsonValue.arr []),
     ("inclusion_criteria_not_met", JsonValue.arr []),
     ("exclusion_criteria_violated", JsonValue.arr []),
     ("reasoning", JsonValue.str "ok")]

/-- The match produced from `verdict09` on `trialPlain`. -/
def mQ : TrialMatch :=
  { trial_id := "T1", trial_name := "N", match_status := "QUALIFIED",
    confidence_score := mkRat 9 10, inclusion_criteria_met := [],
    inclusion_criteria_not_met := [], exclusion_criteria_violated := [],
    reasoning := "ok", contact_info := "C" }

end CTM

namespace CTM

set_option maxRecDepth 100000

/-! Helper lemmas -/

/-- Binding a constant `none` yields `none`. -/
theorem opt_bind_const_none {α β : Type} (x : Option α) :
    (Option.bind x fun _ => (none : Option β)) = none := by
  cases x <;> rfl

/-- The per-candidate loop only ever appends to the accumulator:
previously accumulated matches are never discarded. -/
theorem matchLoop_acc_prefix (env : McpEnv) (total : Nat) :
    ∀ (ids : List String) (i : Nat) (acc : List TrialMatch),
      ∃ t, (matchLoop env total ids i acc).1 = acc ++ t := by
  intro ids
  induction ids with
  | nil => intro i acc; exact ⟨[], by simp [matchLoop]⟩
  | cons tid rest ih =>
    intro i acc
    simp only [matchLoop]
    cases hcb : invokeCb env.progressCallback (trialStatusMsg i total tid) with
    | false => simpa [hcb] using ih (i + 1) acc
    | true =>
      cases hf : getTrialDetailsViaMcp tid (env.fetchOutcome tid) with
      | none => simpa [hcb, hf] using ih (i + 1) acc
      | some trial =>
        cases he : evaluateSingleTrial (env.evalOracle tid) trial with
        | none => simpa [hcb, hf, he] using ih (i + 1) acc
        | some m =>
          obtain ⟨t, ht⟩ := ih (i + 1) (acc ++ [m])
          refine ⟨m :: t, ?_⟩
          simp [hcb, hf, he, ht]

/-- The sorted accumulator is pairwise ordered by non-increasing
confidence score. -/
theorem sortMatches_sorted (ms : List TrialMatch) :
    List.Pairwise (fun a b => b.confidence_score ≤ a.confidence_score) (sortMatches ms) :=
  List.sorted_insertionSort confDescOrder ms

/-- A Python slice with a non-negative stop has length at most the stop. -/
theorem pySliceTo_length_le {α : Type} (n : Int) (hn : 0 ≤ n) (l : List α) :
    (((pySliceTo n l).length : Int)) ≤ n := by
  unfold pySliceTo
  rw [if_pos hn]
  have h := List.length_take_le n.toNat l
  omega

/-- A Python slice of a pairwise-ordered list is pairwise ordered. -/
theorem pySliceTo_pairwise {α : Type} (R : α → α → Prop) (n : Int) (l : List α)
    (h : List.Pairwise R l) : List.Pairwise R (pySliceTo n l) := by
  unfold pySliceTo
  split <;> exact List.Pairwise.sublist (List.take_sublist _ _) h

/-- The per-candidate loop depends only on the fetch outcomes, the
evaluation oracle and the observable behaviour of the progress callback. -/
theorem matchLoop_congr (envA envB : McpEnv) (total : Nat)
    (hfe : envA.fetchOutcome = envB.fetchOutcome)
    (hev : envA.evalOracle = envB.evalOracle)
    (hcb : ∀ s, invokeCb envA.progressCallback s = invokeCb envB.progressCallback s) :
    ∀ ids i acc, matchLoop envA total ids i acc = matchLoop envB total ids i acc := by
  intro ids
  induction ids with
  | nil => intro i acc; rfl
  | cons tid rest ih =>
    intro i acc
    simp only [matchLoop, hfe, hev, hcb, ih]

/-! Claim theorems -/

/-- C2: whenever `match_patient_to_trials` with a non-negative
`max_trials_to_return` returns a list, that list has length at most
`max_trials_to_return` and is ordered by `confidence_score`
non-increasing — the accumulator is stable-sorted by descending
confidence and truncated by the Python slice `[:max_trials_to_return]`
(lines 526-529). -/
theorem c2_result_bounded_and_sorted (env : McpEnv) (n : Int) (hn : 0 ≤ n)
    (ms : List TrialMatch) (hres : matchPatientToTrials env n = Except.ok ms) :
    (ms.length : Int) ≤ n ∧
    List.Pairwise (fun a b => b.confidence_score ≤ a.confidence_score) ms := by
  unfold matchPatientToTrials matchPipeline at hres
  cases h1 : invokeCb env.progressCallback step1Msg
  · simp [h1, Except.map] at hres
  · cases h2 : invokeCb env.progressCallback (step2Msg (conditionsUsed env))
    · simp [h1, h2, Except.map] at hres
    · cases h3 : (searchTrialsViaMcp env.searchOutcome (2 * n)).isEmpty
      · simp only [h1, h2, h3, if_true, Bool.false_eq_true, if_false, Except.map] at hres
        injection hres with hres
        subst hres
        exact ⟨pySliceTo_length_le n hn _,
               pySliceTo_pairwise _ n _ (sortMatches_sorted _)⟩
      · simp only [h1, h2, h3, if_true, Except.map] at hres
        injection hres with hres
        subst hres
        exact ⟨by simpa using hn, List.Pairwise.nil⟩

/-- C2 witness: a concrete run with two accumulated matches and
`max_trials_to_return = 1`. -/
theorem c2_witness :
    (0 : Int) ≤ 1 ∧ matchPatientToTrials env4 1 = Except.ok [m08] ∧
    (([m08] : List TrialMatch).length : Int) ≤ 1 ∧
    List.Pairwise (fun a b : TrialMatch => b.confidence_score ≤ a.confidence_score)
      [m08] := by
  have h := c2_result_bounded_and_sorted env4 1 (by norm_num) [m08] rfl
  exact ⟨by norm_num, rfl, h.1, h.2⟩

/-- C7: a candidate whose detail fetch returns absent is skipped without
invoking the evaluator — the loop step for that candidate is the loop on
the remaining candidates with the accumulator unchanged, so the candidate
contributes no entries and no evaluator-trace entry (lines 496-500). -/
theorem c7_fetch_absent_skips (env : McpEnv) (total : Nat) (tid : String)
    (rest : List String) (i : Nat) (acc : List TrialMatch) (hcb : cbOk env)
    (hfetch : getTrialDetailsViaMcp tid (env.fetchOutcome tid) = none) :
    matchLoop env total (tid :: rest) i acc = matchLoop env total rest (i + 1) acc := by
  have hcb' : ∀ s, invokeCb env.progressCallback s = true := hcb
  simp only [matchLoop, hcb', if_true, hfetch]

/-- C7 witness: a run whose only candidate's fetch times out contributes
nothing and the loop terminates normally. -/
theorem c7_witness :
    matchLoop envFetchFail 1 ["NCT001"] 1 [] = ([], []) ∧
    matchPatientToTrials envFetchFail 10 = Except.ok [] := by
  have h := c7_fetch_absent_skips envFetchFail 1 "NCT001" [] 1 [] (fun _ => rfl) rfl
  exact ⟨h.trans rfl, rfl⟩

/-- C4: an empty candidate list — in particular any whole-run transport
failure (timeout, connection error, non-200 status, or a body without a
payload line), each of which resolves the tool call to `none` and hence
the search to `[]` — makes `match_patient_to_trials` return the empty
list immediately, without raising and without invoking the evaluator
(lines 446-461). -/
theorem c4_empty_candidates_return_empty (env : McpEnv) (n : Int) (hcb : cbOk env) :
    (searchTrialsViaMcp env.searchOutcome (2 * n) = [] →
      matchPipeline env n = Except.ok ([], []) ∧
      matchPatientToTrials env n = Except.ok []) ∧
    callMcpTool HttpOutcome.timeout = none ∧
    callMcpTool HttpOutcome.connError = none ∧
    (∀ status body, ¬ status = 200 → callMcpTool (HttpOutcome.ok status body) = none) ∧
    (∀ body,
      ((splitOnChar '\n' (pyStripChars body.toList)).find?
          (fun l => List.isPrefixOf dataPrefixChars l)) = none →
      callMcpTool (HttpOutcome.ok 200 body) = none) ∧
    (callMcpTool env.searchOutcome = none →
      searchTrialsViaMcp env.searchOutcome (2 * n) = []) := by
  have hcb' : ∀ s, invokeCb env.progressCallback s = true := hcb
  refine ⟨?_, rfl, rfl, ?_, ?_, ?_⟩
  · intro hempty
    have hpipe : matchPipeline env n = Except.ok ([], []) := by
      unfold matchPipeline
      simp only [hcb', if_true, hempty, List.isEmpty_nil, if_true]
    exact ⟨hpipe, by unfold matchPatientToTrials; rw [hpipe]; rfl⟩
  · intro status body hst
    simp [callMcpTool, hst]
  · intro body hfind
    simp only [String.toList] at hfind
    simp [callMcpTool, hfind]
  · intro hnone
    unfold searchTrialsViaMcp
    rw [hnone]

/-- C4 witness: a run whose whole search times out returns the empty list
with no evaluator invocation. -/
theorem c4_witness :
    matchPatientToTrials envTimeout 10 = Except.ok [] ∧
    matchPipeline envTimeout 10 = Except.ok ([], []) ∧
    callMcpTool HttpOutcome.timeout = none := by
  have h := c4_empty_candidates_return_empty envTimeout 10 (fun _ => rfl)
  have h1 := h.1 rfl
  exact ⟨h1.2, h1.1, h.2.1⟩

/-- Unfolding of the evaluator on a successful oracle call. -/
theorem evaluateSingleTrial_ok_eq (resp : String) (trial : TrialDetail) :
    evaluateSingleTrial (Except.ok resp) trial =
      match verdictOf resp with
      | none => none
      | some ev => buildTrialMatch trial ev := rfl

/-- Unfolding of the verdict decoding chain. -/
theorem verdictOf_eq (resp : String) :
    verdictOf resp =
      match extractJsonStr resp with
      | none => none
      | some js => jsonParse js := rfl

/-- Every required verdict key that is missing makes the construction of
the `TrialMatch` fail. -/
theorem buildTrialMatch_none_of_missing (trial : TrialDetail) (ev : JsonValue)
    (k : String) (hk : k ∈ requiredVerdictKeys) (h : jGet ev k = none) :
    buildTrialMatch trial ev = none := by
  simp only [requiredVerdictKeys, List.mem_cons, List.not_mem_nil, or_false] at hk
  rcases hk with rfl | rfl | rfl | rfl | rfl | rfl <;>
    simp [buildTrialMatch, h, opt_bind_const_none]

/-- C3: every evaluation failure — an oracle-call error, a response with
no fenced or brace-delimited JSON object, a JSON decode error, or a
missing required verdict key — makes the evaluator return absent for that
trial; the loop then continues over the remaining candidates with the
accumulated matches kept, and the evaluator is invoked exactly once for
the failing candidate (its identifier heads the step's trace increment,
and the recursion proceeds directly on the tail). -/
theorem c3_failures_drop_candidate (env : McpEnv) (total : Nat) (tid : String)
    (rest : List String) (i : Nat) (acc : List TrialMatch) (trial : TrialDetail)
    (hcb : cbOk env) :
    evaluateSingleTrial (Except.error ()) trial = none ∧
    (∀ resp, extractJsonStr resp = none →
      evaluateSingleTrial (Except.ok resp) trial = none) ∧
    (∀ resp js, extractJsonStr resp = some js → jsonParse js = none →
      evaluateSingleTrial (Except.ok resp) trial = none) ∧
    (∀ resp ev k, verdictOf resp = some ev → k ∈ requiredVerdictKeys →
      jGet ev k = none → evaluateSingleTrial (Except.ok resp) trial = none) ∧
    (getTrialDetailsViaMcp tid (env.fetchOutcome tid) = some trial →
      evaluateSingleTrial (env.evalOracle tid) trial = none →
      matchLoop env total (tid :: rest) i acc =
        ((matchLoop env total rest (i + 1) acc).1,
         tid :: (matchLoop env total rest (i + 1) acc).2)) ∧
    (∀ ids j acc2, ∃ t, (matchLoop env total ids j acc2).1 = acc2 ++ t) := by
  have hcb' : ∀ s, invokeCb env.progressCallback s = true := hcb
  refine ⟨rfl, ?_, ?_, ?_, ?_, matchLoop_acc_prefix env total⟩
  · intro resp hx
    rw [evaluateSingleTrial_ok_eq, verdictOf_eq, hx]
  · intro resp js hx hp
    rw [evaluateSingleTrial_ok_eq, verdictOf_eq, hx]
    show (match jsonParse js with
          | none => none
          | some ev => buildTrialMatch trial ev) = none
    rw [hp]
  · intro resp ev k hv hk hnone
    rw [evaluateSingleTrial_ok_eq, hv]
    exact buildTrialMatch_none_of_missing trial ev k hk hnone
  · intro hfetch heval
    simp only [matchLoop, hcb', if_true, hfetch, heval]

/-- C3 witness: a response with no JSON object evaluates to absent, and a
concrete loop step with a failing oracle keeps the (empty) accumulator,
records exactly one evaluator invocation and terminates. -/
theorem c3_witness :
    evaluateSingleTrial (Except.ok "no json here") trialHello = none ∧
    matchLoop envEvalFail 1 ["NCT001"] 1 [] = ([], ["NCT001"]) := by
  have h := c3_failures_drop_candidate envEvalFail 1 "NCT001" [] 1 [] trialHello
    (fun _ => rfl)
  refine ⟨h.2.1 "no json here" rfl, ?_⟩
  have h5 := h.2.2.2.2.1 rfl rfl
  exact h5.trans rfl

/-- C6: when condition extraction yields the empty sequence, the
orchestrator substitutes the single generic fallback term (lines 433-436),
builds the search query from it, completes without raising, and behaves
exactly as a run whose extraction yielded the fallback term itself. -/
theorem c6_empty_extraction_fallback (env : McpEnv) (n : Int)
    (hempty : env.extractResult = []) (hcb : cbOk env) :
    conditionsUsed env = ["clinical trial"] ∧
    searchQueryUsed env = "clinical trial" ∧
    (∃ ms, matchPatientToTrials env n = Except.ok ms) ∧
    matchPipeline env n = matchPipeline { env with extractResult := ["clinical trial"] } n := by
  have hcb' : ∀ s, invokeCb env.progressCallback s = true := hcb
  have hcond : conditionsUsed env = ["clinical trial"] := by
    unfold conditionsUsed
    rw [hempty]
    rfl
  refine ⟨hcond, ?_, ?_, ?_⟩
  · unfold searchQueryUsed
    rw [hcond]
    rfl
  · unfold matchPatientToTrials matchPipeline
    simp only [hcb', if_true]
    cases h3 : (searchTrialsViaMcp env.searchOutcome (2 * n)).isEmpty <;>
      simp [h3, Except.map]
  · have hcond2 : conditionsUsed { env with extractResult := ["clinical trial"] }
        = ["clinical trial"] := rfl
    have hloop := matchLoop_congr env { env with extractResult := ["clinical trial"] }
      (searchTrialsViaMcp env.searchOutcome (2 * n)).length rfl rfl (fun _ => rfl)
    unfold matchPipeline
    simp only [hcond, hcond2, hloop]

/-- C6 witness: an empty extraction with a timed-out search still returns
a well-formed empty match list via the fallback term. -/
theorem c6_witness :
    conditionsUsed envNoCond = ["clinical trial"] ∧
    searchQueryUsed envNoCond = "clinical trial" ∧
    matchPatientToTrials envNoCond 5 = Except.ok [] := by
  have h := c6_empty_extraction_fallback envNoCond 5 rfl (fun _ => rfl)
  exact ⟨h.1, h.2.1, rfl⟩

/-- C10: with a negative `max_trials_to_return = n`, the final Python
slice `matches[:n]` removes the last `|n|` elements of the sorted
accumulator, so with more than `|n|` accumulated matches the result is
non-empty, of length `length - |n|` — not bounded by `n`. -/
theorem c10_negative_truncation (env : McpEnv) (n : Int) (hn : n < 0)
    (hcb : cbOk env) (tids : List String) (sorted : List TrialMatch)
    (htids : searchTrialsViaMcp env.searchOutcome (2 * n) = tids)
    (hne : tids ≠ [])
    (hsorted : sortMatches (matchLoop env tids.length tids 1 []).1 = sorted) :
    matchPatientToTrials env n = Except.ok (sorted.take (sorted.length - n.natAbs)) ∧
    (n.natAbs < sorted.length →
      sorted.take (sorted.length - n.natAbs) ≠ [] ∧
      (sorted.take (sorted.length - n.natAbs)).length = sorted.length - n.natAbs) := by
  have hcb' : ∀ s, invokeCb env.progressCallback s = true := hcb
  constructor
  · unfold matchPatientToTrials matchPipeline
    have hne' : tids.isEmpty = false := by
      cases tids with
      | nil => exact absurd rfl hne
      | cons a l => rfl
    simp only [hcb', if_true, htids, hne', Bool.false_eq_true, if_false, hsorted,
      Except.map]
    have harith : (((sorted.length : Int)) + n).toNat = sorted.length - n.natAbs := by
      omega
    unfold pySliceTo
    rw [if_neg (not_le.mpr hn), harith]
  · intro hlt
    constructor
    · have hlen : (sorted.take (sorted.length - n.natAbs)).length
          = sorted.length - n.natAbs := by
        rw [List.length_take]
        omega
      intro hnil
      rw [hnil] at hlen
      simp at hlen
      omega
    · rw [List.length_take]
      omega

/-- C10 witness: `max_trials_to_return = -1` with two accumulated matches
returns one match — the sorted accumulator with its last element
removed — rather than an empty or bounded-by-`n` list. -/
theorem c10_witness :
    matchPatientToTrials env4 (-1) = Except.ok [m08] ∧
    ([m08] : List TrialMatch) ≠ [] ∧ ([m08] : List TrialMatch).length = 1 := by
  have hn : (-1 : Int) < 0 := by norm_num
  have hcb : cbOk env4 := fun _ => rfl
  have htids : searchTrialsViaMcp env4.searchOutcome (2 * (-1 : Int))
      = ["NCT001", "NCT002"] := rfl
  have hne : (["NCT001", "NCT002"] : List String) ≠ [] := by simp
  have hsorted :
      sortMatches
        (matchLoop env4 (["NCT001", "NCT002"] : List String).length
          ["NCT001", "NCT002"] 1 []).1 = [m08, m04] := rfl
  have h := c10_negative_truncation env4 (-1) hn hcb _ _ htids hne hsorted
  exact ⟨h.1.trans rfl, by simp, rfl⟩

/-- C5 amended: a progress callback whose invocations all return normally
never affects the returned match list — the callback's return value is
ignored and its only influence channel is raising. -/
theorem c5_callback_no_effect_when_normal (env : McpEnv) (f : String → Bool)
    (hf : ∀ s, f s = true) (n : Int) :
    matchPatientToTrials { env with progressCallback := some f } n
      = matchPatientToTrials { env with progressCallback := none } n := by
  have hcbA : ∀ s,
      invokeCb (McpEnv.progressCallback { env with progressCallback := some f }) s
        = true := by
    intro s
    simpa [invokeCb] using hf s
  have hcbB : ∀ s,
      invokeCb (McpEnv.progressCallback { env with progressCallback := none }) s
        = true := fun _ => rfl
  have hloop := matchLoop_congr { env with progressCallback := some f }
      { env with progressCallback := none }
      (searchTrialsViaMcp env.searchOutcome (2 * n)).length rfl rfl
      (fun s => (hcbA s).trans (hcbB s).symm)
  unfold matchPatientToTrials matchPipeline
  simp only [hcbA, hcbB, if_true]
  cases h3 : (searchTrialsViaMcp env.searchOutcome (2 * n)).isEmpty
  · simp only [h3, Bool.false_eq_true, if_false]
    rw [hloop]
  · simp only [h3, if_true]

/-- C5 amended witness: an always-normal callback yields the same result
as no callback on a concrete run. -/
theorem c5_witness :
    matchPatientToTrials { envBase with progressCallback := some (fun _ => true) } 10
      = matchPatientToTrials { envBase with progressCallback := none } 10 :=
  c5_callback_no_effect_when_normal envBase (fun _ => true) (fun _ => rfl) 10

/-- C5 counterexample: a callback that raises on the per-candidate status
messages changes the returned list — the per-candidate handler catches the
exception and skips the candidate (lines 492-493 sit inside the handler of
lines 489/517), so the run returns `[]` where the callback-free run
returns one match. -/
theorem c5_counterexample :
    envCb = { envBase with progressCallback := some cbRaiseOnStep4 } ∧
    matchPatientToTrials envBase 10 = Except.ok [m09] ∧
    matchPatientToTrials envCb 10 = Except.ok [] ∧
    Except.ok [m09] ≠ (Except.ok [] : Except Unit (List TrialMatch)) := by
  refine ⟨rfl, rfl, rfl, ?_⟩
  intro hcontra
  injection hcontra with hcontra
  exact absurd hcontra (by simp)

/-- C1 amended: the evaluator copies `match_status` and
`confidence_score` into the `TrialMatch` exactly as the verdict carries
them, with no validation or clamping; the enumeration/range invariant
therefore holds exactly when the verdict's own values satisfy it. -/
theorem c1_verdict_passthrough (oracleText : String) (trial : TrialDetail)
    (m : TrialMatch) (h : evaluateSingleTrial (Except.ok oracleText) trial = some m) :
    ∃ ev stV scV,
      verdictOf oracleText = some ev ∧
      jGet ev "match_status" = some stV ∧ asStr? stV = some m.match_status ∧
      jGet ev "confidence_score" = some scV ∧ pyFloat? scV = some m.confidence_score ∧
      ((stV = JsonValue.str "QUALIFIED" ∨ stV = JsonValue.str "NOT_QUALIFIED" ∨
        stV = JsonValue.str "NEEDS_MORE_INFO") →
        m.match_status = "QUALIFIED" ∨ m.match_status = "NOT_QUALIFIED" ∨
        m.match_status = "NEEDS_MORE_INFO") ∧
      (∀ q : Rat, scV = JsonValue.num q → 0 ≤ q → q ≤ 1 →
        0 ≤ m.confidence_score ∧ m.confidence_score ≤ 1) := by
  rw [evaluateSingleTrial_ok_eq] at h
  cases hv : verdictOf oracleText with
  | none => rw [hv] at h; exact absurd h (by simp)
  | some ev =>
    rw [hv] at h
    unfold buildTrialMatch at h
    rw [Option.bind_eq_some] at h
    obtain ⟨stV, h1, h⟩ := h
    rw [Option.bind_eq_some] at h
    obtain ⟨scV, h2, h⟩ := h
    rw [Option.bind_eq_some] at h
    obtain ⟨sc, h3, h⟩ := h
    rw [Option.bind_eq_some] at h
    obtain ⟨imV, h4, h⟩ := h
    rw [Option.bind_eq_some] at h
    obtain ⟨inV, h5, h⟩ := h
    rw [Option.bind_eq_some] at h
    obtain ⟨exV, h6, h⟩ := h
    rw [Option.bind_eq_some] at h
    obtain ⟨reV, h7, h⟩ := h
    rw [Option.bind_eq_some] at h
    obtain ⟨st, h8, h⟩ := h
    rw [Option.bind_eq_some] at h
    obtain ⟨im, h9, h⟩ := h
    rw [Option.bind_eq_some] at h
    obtain ⟨ninc, h10, h⟩ := h
    rw [Option.bind_eq_some] at h
    obtain ⟨exc, h11, h⟩ := h
    rw [Option.bind_eq_some] at h
    obtain ⟨reas, h12, h⟩ := h
    injection h with h
    subst h
    refine ⟨ev, stV, scV, rfl, h1, h8, h2, h3, ?_, ?_⟩
    · intro hd
      rcases hd with rfl | rfl | rfl
      · have h8' : some "QUALIFIED" = some st := h8
        injection h8' with h8'
        exact Or.inl h8'.symm
      · have h8' : some "NOT_QUALIFIED" = some st := h8
        injection h8' with h8'
        exact Or.inr (Or.inl h8'.symm)
      · have h8' : some "NEEDS_MORE_INFO" = some st := h8
        injection h8' with h8'
        exact Or.inr (Or.inr h8'.symm)
    · intro q hq h0 h1q
      subst hq
      have h3' : some q = some sc := h3
      injection h3' with h3'
      subst h3'
      exact ⟨h0, h1q⟩

/-- C1 amended witness: a well-formed verdict whose status is an
enumerator and whose score is in range produces a `TrialMatch` satisfying
the invariant. -/
theorem c1_witness :
    evaluateSingleTrial (Except.ok verdict09) trialPlain = some mQ ∧
    (mQ.match_status = "QUALIFIED" ∨ mQ.match_status = "NOT_QUALIFIED" ∨
     mQ.match_status = "NEEDS_MORE_INFO") ∧
    0 ≤ mQ.confidence_score ∧ mQ.confidence_score ≤ 1 := by
  have heval : evaluateSingleTrial (Except.ok verdict09) trialPlain = some mQ := rfl
  obtain ⟨ev, stV, scV, hv, h1, h2, h3, h4, himp, hrange⟩ :=
    c1_verdict_passthrough verdict09 trialPlain mQ heval
  have hv2 : verdictOf verdict09 = some evC09 := rfl
  have hev : ev = evC09 := by
    have hx := hv.symm.trans hv2
    injection hx
  subst hev
  have hstV : stV = JsonValue.str "QUALIFIED" := by
    have hx : some stV = some (JsonValue.str "QUALIFIED") :=
      h1.symm.trans (rfl : jGet evC09 "match_status" = some (JsonValue.str "QUALIFIED"))
    injection hx
  have hscV : scV = JsonValue.num (mkRat 9 10) := by
    have hx : some scV = some (JsonValue.num (mkRat 9 10)) :=
      h3.symm.trans
        (rfl : jGet evC09 "confidence_score" = some (JsonValue.num (mkRat 9 10)))
    injection hx
  refine ⟨heval, himp (Or.inl hstV), ?_⟩
  exact hrange (mkRat 9 10) hscV (by decide) (by decide)

/-- C1 counterexample: a syntactically well-formed verdict with a status
outside the three enumerators and a score outside `[0, 1]` still produces
a `TrialMatch`, which carries those out-of-contract values. -/
theorem c1_counterexample :
    evaluateSingleTrial (Except.ok verdictBad) trialPlain = some mBad ∧
    mBad.match_status = "MAYBE" ∧
    ¬ (mBad.match_status = "QUALIFIED" ∨ mBad.match_status = "NOT_QUALIFIED" ∨
       mBad.match_status = "NEEDS_MORE_INFO") ∧
    mBad.confidence_score = mkRat 2 1 ∧ ¬ mBad.confidence_score ≤ 1 := by
  refine ⟨rfl, rfl, ?_, rfl, by decide⟩
  intro hd
  rcases hd with hd | hd | hd <;> simp [mBad] at hd

/-- C8: `generate_report` of the empty match list is exactly the fixed
sentence of line 625, and the report is a deterministic pure function of
the match list alone. -/
theorem c8_report_empty_fixed :
    generateReport [] = "No clinical trials found matching the patient's profile." ∧
    ∀ ms1 ms2 : List TrialMatch, ms1 = ms2 → generateReport ms1 = generateReport ms2 := by
  exact ⟨rfl, fun ms1 ms2 hms => by rw [hms]⟩

/-- C8 witness: the determinism component applied at the empty list. -/
theorem c8_witness :
    generateReport [] = "No clinical trials found matching the patient's profile." ∧
    generateReport [] = generateReport [] :=
  ⟨c8_report_empty_fixed.1, c8_report_empty_fixed.2 [] [] rfl⟩

/-- When neither title field is truthy, the name falls back to the
`"Unknown"` sentinel of line 340. -/
theorem extractTrialName_default (ident : JsonValue)
    (h1 : truthy (jGetN ident "briefTitle") = false)
    (h2 : truthy (jGetN ident "officialTitle") = false) :
    extractTrialName ident = Except.ok "Unknown" := by
  unfold extractTrialName pyOr
  simp [h1, h2]

/-- Every record built from a protocol section carries the requested
identifier, the `"Unknown"` name sentinel when both title fields lack
truthy data, and the `"Not available"` contact sentinel when contact
extraction keeps the default. -/
theorem trialFromProtocol_spec (nctId : String) (protocol : JsonValue)
    (d : TrialDetail) (h : trialFromProtocol nctId protocol = some d) :
    d.trial_id = nctId ∧
    (truthy (jGetN (identModuleOf protocol) "briefTitle") = false →
     truthy (jGetN (identModuleOf protocol) "officialTitle") = false →
     d.trial_name = "Unknown") ∧
    (extractContactInfo protocol = Except.ok none →
     d.contact_info = "Not available") := by
  unfold trialFromProtocol at h
  by_cases hobj : (isObjB (identModuleOf protocol) && isObjB (eligModuleOf protocol)
      && isObjB (descriptionModuleOf protocol) && isObjB (statusModuleOf protocol)) = true
  · rw [if_pos hobj] at h
    cases hname : extractTrialName (identModuleOf protocol) with
    | error e =>
      rw [hname] at h
      cases hcont : extractContactInfo protocol <;> rw [hcont] at h <;> simp at h
    | ok name =>
      rw [hname] at h
      cases hcont : extractContactInfo protocol with
      | error e => rw [hcont] at h; simp at h
      | ok contactOpt =>
        rw [hcont] at h
        injection h with h
        subst h
        refine ⟨rfl, ?_, ?_⟩
        · intro hb ho
          have hu := extractTrialName_default (identModuleOf protocol) hb ho
          exact Except.ok.inj (hname.symm.trans hu)
        · intro hc
          have hx : contactOpt = none := Except.ok.inj hc
          subst hx
          rfl
  · rw [if_neg hobj] at h
    exact absurd h (by simp)

/-- C9: whenever the detail fetch returns a record, the record carries all
four fields by construction, its `trial_id` equals the requested NCT
identifier, and `trial_name` / `contact_info` keep the sentinels
`"Unknown"` / `"Not available"` whenever the decoded payload lacks truthy
title data / central-contact data. -/
theorem c9_fetch_detail_invariants (nct : String) (outcome : HttpOutcome)
    (d : TrialDetail) (h : getTrialDetailsViaMcp nct outcome = some d) :
    d.trial_id = nct ∧
    ∀ r, callMcpTool outcome = some r →
      ((truthy (jGetN (identModuleOf (protocolOf r)) "briefTitle") = false →
        truthy (jGetN (identModuleOf (protocolOf r)) "officialTitle") = false →
        d.trial_name = "Unknown") ∧
       (extractContactInfo (protocolOf r) = Except.ok none →
        d.contact_info = "Not available")) := by
  unfold getTrialDetailsViaMcp at h
  cases hr : callMcpTool outcome with
  | none => rw [hr] at h; simp at h
  | some result =>
    simp only [hr, Option.some_bind] at h
    by_cases ht : truthy result = true
    case neg =>
      have ht' : truthy result = false := by
        revert ht; cases truthy result <;> simp
      rw [ht'] at h
      simp at h
    case pos =>
      rw [ht] at h
      simp only [Bool.not_true, Bool.false_eq_true, if_false] at h
      cases result with
      | obj fields =>
        by_cases hp : truthy (protocolOf (JsonValue.obj fields)) = true
        · rw [if_pos hp] at h
          obtain ⟨hid, hnm, hct⟩ := trialFromProtocol_spec nct _ d h
          refine ⟨hid, ?_⟩
          intro r hr2
          have hre : JsonValue.obj fields = r := Option.some.inj hr2
          subst hre
          exact ⟨hnm, hct⟩
        · rw [if_neg hp] at h
          injection h with h
          subst h
          exact ⟨rfl, fun r hr2 => ⟨fun _ _ => rfl, fun _ => rfl⟩⟩
      | null =>
        injection h with h
        subst h
        exact ⟨rfl, fun r hr2 => ⟨fun _ _ => rfl, fun _ => rfl⟩⟩
      | bool b =>
        injection h with h
        subst h
        exact ⟨rfl, fun r hr2 => ⟨fun _ _ => rfl, fun _ => rfl⟩⟩
      | num q =>
        injection h with h
        subst h
        exact ⟨rfl, fun r hr2 => ⟨fun _ _ => rfl, fun _ => rfl⟩⟩
      | str str0 =>
        injection h with h
        subst h
        exact ⟨rfl, fun r hr2 => ⟨fun _ _ => rfl, fun _ => rfl⟩⟩
      | arr xs =>
        injection h with h
        subst h
        exact ⟨rfl, fun r hr2 => ⟨fun _ _ => rfl, fun _ => rfl⟩⟩

/-- C9 witness: a concrete fetch whose payload is a bare string yields a
record with the requested identifier and both sentinels. -/
theorem c9_witness :
    getTrialDetailsViaMcp "NCT001" (HttpOutcome.ok 200 sseFetchBodyHello)
      = some trialHello ∧
    trialHello.trial_id = "NCT001" ∧ trialHello.trial_name = "Unknown" ∧
    trialHello.contact_info = "Not available" := by
  have hfetch : getTrialDetailsViaMcp "NCT001" (HttpOutcome.ok 200 sseFetchBodyHello)
      = some trialHello := rfl
  have h := c9_fetch_detail_invariants "NCT001" (HttpOutcome.ok 200 sseFetchBodyHello)
    trialHello hfetch
  have h2 := h.2 (JsonValue.str "hello") rfl
  exact ⟨hfetch, h.1, h2.1 rfl rfl, h2.2 rfl⟩

end CTM
